import Mathlib

/-!
Verification of the stress-aware task scheduling engine
(`AITaskSchedulerAgent` in the frontend JavaScript module).

The engine is shallowly embedded: every definition below translates the
corresponding JavaScript method of `AITaskSchedulerAgent`
(`processScheduleLocally`, `createOptimizedScheduleFixed`,
`calculateDeadlineUrgency`, `getImportanceScore`, `assessComplexity`,
`classifyTaskType`, `calculateStressCompatibility`, `calculateFinalPriority`,
`getStressImpact`, `getStressActions`, `generateRecommendations`).

Modelling conventions:
- Minutes are natural numbers; confidence/urgency scores are rationals
  (JavaScript numbers; every constant in the source is exactly
  representable, and the algorithm only adds, multiplies and compares).
- The current wall-clock time (`new Date()` in the source) is passed as an
  explicit parameter `now`, in milliseconds since the epoch.
- A task deadline is `none` when absent (falsy in JS).  A present deadline
  is either `JSDate.valid ms` (parseable) or `JSDate.invalid`: in
  JavaScript, `new Date(badString)` does not throw but yields an Invalid
  Date, so `deadline - now` is NaN and every comparison `NaN <= c` is
  false; `JSDate.invalid` therefore falls through all the threshold
  comparisons.
- `time_block` stores the index of the assigned slot in the engine's
  `availableSlots` array (the source stores a reference to that same
  mutable slot record; the index identifies the window).
-/

set_option maxRecDepth 8192

namespace Sched

/-- A JavaScript `Date` value built from a deadline string: either a valid
timestamp in milliseconds since the epoch, or an Invalid Date (the result
of parsing an unparseable string; arithmetic on it produces NaN). -/
inductive JSDate where
  | valid (ms : Int)
  | invalid
deriving Repr, DecidableEq

/-- An input task as built by the frontend parser (`parseTasksInput`). -/
structure Task where
  id : Nat
  title : String
  priority : String
  estimated_duration : Nat
  deadline : Option JSDate
deriving Repr, DecidableEq

/-- An input time slot as built by the frontend parser (`parseTimeSlots`). -/
structure TimeSlot where
  duration_minutes : Nat
  label : String
deriving Repr, DecidableEq

/-- JavaScript `s.includes(pat)` for a non-empty pattern: `splitOn`
produces more than one piece exactly when the pattern occurs in `s`. -/
def strIncludes (s pat : String) : Bool :=
  (s.splitOn pat).length != 1

/-- `calculateDeadlineUrgency(task)`.  No deadline yields 0.2.  A present
but unparseable deadline makes `hoursUntil` NaN, every `NaN <= c`
comparison is false, and control falls through to the final `return 0.3`
(the `catch` clause returning 0.2 is unreachable: the `Date` constructor
does not throw on bad input). -/
def calculateDeadlineUrgency (now : Int) (task : Task) : ℚ :=
  match task.deadline with
  | none => 0.2
  | some JSDate.invalid => 0.3
  | some (JSDate.valid ms) =>
    let hoursUntil : ℚ := (ms - now : ℤ) / (1000 * 60 * 60)
    if hoursUntil ≤ 6 then 1.0
    else if hoursUntil ≤ 24 then 0.9
    else if hoursUntil ≤ 48 then 0.7
    else if hoursUntil ≤ 168 then 0.5
    else 0.3

/-- `getImportanceScore(priority)`: `priorityMap[priority] || 0.6` (all map
values are truthy, so the fallback only applies to unknown keys). -/
def getImportanceScore (priority : String) : ℚ :=
  if priority = "high" then 1.0
  else if priority = "medium" then 0.6
  else if priority = "low" then 0.3
  else 0.6

/-- `assessComplexity(title)`. -/
def assessComplexity (title : String) : ℚ :=
  let t := title.toLower
  let complexWords := ["analysis", "research", "development", "complex", "detailed"]
  let simpleWords := ["update", "check", "review", "simple", "quick"]
  let score : ℚ := 0.5
  let score := if complexWords.any (fun w => strIncludes t w) then score + 0.2 else score
  let score := if simpleWords.any (fun w => strIncludes t w) then score - 0.2 else score
  max 0.1 (min 1.0 score)

/-- `classifyTaskType(title)`. -/
def classifyTaskType (title : String) : String :=
  let t := title.toLower
  if ["code", "develop", "analysis"].any (fun w => strIncludes t w) then "deep_work"
  else if ["design", "create", "brainstorm"].any (fun w => strIncludes t w) then "creative"
  else if ["email", "meeting", "plan"].any (fun w => strIncludes t w) then "administrative"
  else "routine"

/-- `calculateStressCompatibility(task, stressLevel)`. -/
def calculateStressCompatibility (stressLevel : Nat) (task : Task) : ℚ :=
  let complexity := assessComplexity task.title
  max 0.1 (1.0 - complexity * stressLevel / 10 * 0.7)

/-- `calculateFinalPriority(task, stressLevel)`. -/
def calculateFinalPriority (now : Int) (stressLevel : Nat) (task : Task) : ℚ :=
  let urgency := calculateDeadlineUrgency now task
  let importance := getImportanceScore task.priority
  let compatibility := calculateStressCompatibility stressLevel task
  urgency * 0.5 + importance * 0.3 + compatibility * 0.2

/-- The `analysis` record attached to each task in
`processScheduleLocally`. -/
structure Analysis where
  deadline_urgency : ℚ
  importance_score : ℚ
  complexity_score : ℚ
  task_type : String
  ai_confidence : ℚ
  stress_compatibility : ℚ
  final_priority : ℚ
deriving Repr, DecidableEq

/-- A task decorated with its analysis (`{ ...task, analysis: {...} }`). -/
structure AnalyzedTask where
  base : Task
  analysis : Analysis
deriving Repr, DecidableEq

/-- The per-task annotation step of `processScheduleLocally`. -/
def analyzeTask (now : Int) (stressLevel : Nat) (task : Task) : AnalyzedTask :=
  { base := task
    analysis :=
      { deadline_urgency := calculateDeadlineUrgency now task
        importance_score := getImportanceScore task.priority
        complexity_score := assessComplexity task.title
        task_type := classifyTaskType task.title
        ai_confidence := 0.85
        stress_compatibility := calculateStressCompatibility stressLevel task
        final_priority := calculateFinalPriority now stressLevel task } }

/-- One element of the engine's `availableSlots` working array:
`{ ...slot, remaining_time: slot.duration_minutes, used: false }`. -/
structure Slot where
  base : TimeSlot
  remaining_time : Nat
  used : Bool
deriving Repr, DecidableEq

/-- One entry of the returned schedule. -/
structure ScheduleItem where
  task : AnalyzedTask
  time_block : Option Nat
  allocated_duration : Nat
  completion_status : String
  scheduling_confidence : ℚ
  deadline_urgency : ℚ
  notes : List String
deriving Repr, DecidableEq

/-- The one item shape of the early-return branch of
`createOptimizedScheduleFixed` (empty task or slot list).  The source
reads `task.analysis?.deadline_urgency || 0`; the analysis record is
always attached by `processScheduleLocally` and every urgency value is
positive, so this equals the task's scored urgency. -/
def unavailableItem (task : AnalyzedTask) : ScheduleItem :=
  { task := task
    time_block := none
    allocated_duration := 0
    completion_status := "not_scheduled"
    scheduling_confidence := 0.0
    deadline_urgency := task.analysis.deadline_urgency
    notes := ["No time slots available"] }

/-- Strategy 1 slot search: running best (index, slot) over the slot array,
preferring the smallest leftover `remaining_time - taskDuration` among
unused slots with `remaining_time >= taskDuration`; a strict comparison
keeps the first slot on ties.  `i` is the index of the head of the
remaining list in the full array. -/
def bestFitFrom (dur : Nat) : List Slot → Nat → Option (Nat × Slot) → Option (Nat × Slot)
  | [], _, best => best
  | s :: rest, i, best =>
    if s.used = false ∧ dur ≤ s.remaining_time then
      match best with
      | none => bestFitFrom dur rest (i + 1) (some (i, s))
      | some (bi, bs) =>
        if s.remaining_time - dur < bs.remaining_time - dur then
          bestFitFrom dur rest (i + 1) (some (i, s))
        else
          bestFitFrom dur rest (i + 1) (some (bi, bs))
    else bestFitFrom dur rest (i + 1) best

/-- The full strategy-1 search over `availableSlots`. -/
def bestFit (dur : Nat) (slots : List Slot) : Option (Nat × Slot) :=
  bestFitFrom dur slots 0 none

/-- Strategy 2 slot search: running maximum of `remaining_time` over unused
slots with at least 15 minutes left (`maxAvailableTime` starts at 0 and is
always the remaining time of the current best slot); a strict comparison
keeps the first slot on ties. -/
def maxSlotFrom : List Slot → Nat → Nat → Option (Nat × Slot) → Option (Nat × Slot)
  | [], _, _, best => best
  | s :: rest, i, maxAvail, best =>
    if s.used = false ∧ maxAvail < s.remaining_time ∧ 15 ≤ s.remaining_time then
      maxSlotFrom rest (i + 1) s.remaining_time (some (i, s))
    else maxSlotFrom rest (i + 1) maxAvail best

/-- The full strategy-2 search over `availableSlots`. -/
def maxSlot (slots : List Slot) : Option (Nat × Slot) :=
  maxSlotFrom slots 0 0 none

/-- Strategy 3 slot search: `availableSlots.find(slot => !slot.used &&
slot.remaining_time >= 10)` with its index. -/
def firstRescueFrom : List Slot → Nat → Option (Nat × Slot)
  | [], _ => none
  | s :: rest, i =>
    if s.used = false ∧ 10 ≤ s.remaining_time then some (i, s)
    else firstRescueFrom rest (i + 1)

/-- The full strategy-3 search over `availableSlots`. -/
def firstRescue (slots : List Slot) : Option (Nat × Slot) :=
  firstRescueFrom slots 0

/-- The schedule item pushed by strategy 1 for a perfectly fitting task. -/
def perfectItem (task : AnalyzedTask) (bi : Nat) (bs : Slot) : ScheduleItem :=
  { task := task
    time_block := some bi
    allocated_duration := task.base.estimated_duration
    completion_status := "complete"
    scheduling_confidence := 0.9
    deadline_urgency := task.analysis.deadline_urgency
    notes := ["Perfect fit in " ++ toString bs.base.duration_minutes ++ "-minute slot"] }

/-- Strategy 1 of `createOptimizedScheduleFixed`, the `remainingTasks.forEach`
loop that splices placed tasks out of the array it iterates.

ECMAScript `forEach` walks indices 0,1,2,... of the live array (stopping at
indices past the current length), and `splice(k, 1)` at the visited index
shifts every later element down by one; the element that directly follows
a placed task is therefore never visited, though it stays in
`remainingTasks`.  (`remainingTasks.indexOf(task)` is the visited index
itself, since the analyzed task objects are pairwise distinct references.)
This recursion realizes exactly that walk: `pending` holds the part of the
array from the current index on, and `survivors` the earlier elements that
were not placed — including the unvisited element skipped after each
placement.  Returns (schedule so far, slots, final `remainingTasks`). -/
def phase1Go (slots : List Slot) (survivors pending : List AnalyzedTask)
    (sched : List ScheduleItem) : List ScheduleItem × List Slot × List AnalyzedTask :=
  match pending with
  | [] => (sched, slots, survivors)
  | task :: rest =>
    let dur := task.base.estimated_duration
    match bestFit dur slots with
    | some (bi, bs) =>
      let item := perfectItem task bi bs
      let slots' :=
        if bs.remaining_time = dur then slots.set bi { bs with used := true }
        else slots.set bi { bs with remaining_time := bs.remaining_time - dur }
      match rest with
      | [] => (sched ++ [item], slots', survivors)
      | skipped :: rest' => phase1Go slots' (survivors ++ [skipped]) rest' (sched ++ [item])
    | none => phase1Go slots (survivors ++ [task]) rest sched

/-- The schedule item pushed by strategy 2 when a slot `bs` (at index
`bi`) with at least 15 minutes remaining is found: allocate
`min(taskDuration, remaining)`, retitle on a partial fit, and pick
status and confidence from the partial/scaled tests. -/
def fittedItem (totalTaskTime totalAvailableTime : Nat) (task : AnalyzedTask)
    (bi : Nat) (bs : Slot) : ScheduleItem :=
  let dur := task.base.estimated_duration
  let allocatedTime := min dur bs.remaining_time
  let newTitle :=
    if allocatedTime < dur then task.base.title ++ " (Partial)" else task.base.title
  let status :=
    if allocatedTime < dur then "partial"
    else if totalAvailableTime < totalTaskTime then "scaled"
    else "complete"
  let conf : ℚ := if allocatedTime < dur then 0.6 else 0.8
  let note :=
    if allocatedTime < dur then
      "Partial scheduling: " ++ toString allocatedTime ++ " of " ++ toString dur ++ " minutes"
    else "Scheduled in available " ++ toString allocatedTime ++ "-minute slot"
  { task := { task with base := { task.base with title := newTitle } }
    time_block := some bi
    allocated_duration := allocatedTime
    completion_status := status
    scheduling_confidence := conf
    deadline_urgency := task.analysis.deadline_urgency
    notes := [note] }

/-- The schedule item pushed by strategy 2 when no slot with at least 15
minutes remains. -/
def noSlotItem (task : AnalyzedTask) : ScheduleItem :=
  { task := task
    time_block := none
    allocated_duration := 0
    completion_status := "not_scheduled"
    scheduling_confidence := 0.0
    deadline_urgency := task.analysis.deadline_urgency
    notes := ["No available time slots remaining - consider adding more time blocks"] }

/-- Strategy 2 of `createOptimizedScheduleFixed`, one task of the
`remainingTasks.forEach` loop (no element is removed here, so the loop is
a plain left fold).  `totalTaskTime` and `totalAvailableTime` are the
call-start totals computed before strategy 1. -/
def phase2Step (totalTaskTime totalAvailableTime : Nat)
    (acc : List ScheduleItem × List Slot) (task : AnalyzedTask) :
    List ScheduleItem × List Slot :=
  let sched := acc.1
  let slots := acc.2
  let dur := task.base.estimated_duration
  match maxSlot slots with
  | some (bi, bs) =>
    let item := fittedItem totalTaskTime totalAvailableTime task bi bs
    let allocatedTime := min dur bs.remaining_time
    let newRemaining := bs.remaining_time - allocatedTime
    let slots' :=
      slots.set bi
        { bs with
          remaining_time := newRemaining
          used := if newRemaining < 15 then true else bs.used }
    (sched ++ [item], slots')
  | none => (sched ++ [noSlotItem task], slots)

/-- The in-place update strategy 3 performs on a rescued schedule item,
given the first unused slot `s` (at index `si`) with at least 10 minutes
remaining. -/
def rescuedItem (item : ScheduleItem) (si : Nat) (s : Slot) : ScheduleItem :=
  let allocatedTime := min item.task.base.estimated_duration s.remaining_time
  { item with
    time_block := some si
    allocated_duration := allocatedTime
    completion_status :=
      if allocatedTime < item.task.base.estimated_duration then "partial" else "scaled"
    scheduling_confidence := 0.5
    notes := ["Emergency scheduling: " ++ toString allocatedTime ++
      " minutes for high-priority task"] }

/-- Strategy 3 of `createOptimizedScheduleFixed` for one schedule item.
The source filters `schedule` for not-scheduled items whose task priority
is `high` or whose `deadline_urgency` exceeds 0.8, then walks the filtered
items in schedule order mutating them in place; folding this step over
the whole schedule visits the same items in the same order with the same
slot state. -/
def rescueStep (acc : List ScheduleItem × List Slot) (item : ScheduleItem) :
    List ScheduleItem × List Slot :=
  let done := acc.1
  let slots := acc.2
  if item.completion_status = "not_scheduled" ∧
      (item.task.base.priority = "high" ∨ (0.8 : ℚ) < item.deadline_urgency) then
    match firstRescue slots with
    | some (si, s) =>
      let item' := rescuedItem item si s
      let allocatedTime := min item.task.base.estimated_duration s.remaining_time
      let newRemaining := s.remaining_time - allocatedTime
      let slots' :=
        slots.set si
          { s with
            remaining_time := newRemaining
            used := if newRemaining < 10 then true else s.used }
      (done ++ [item'], slots')
    | none => (done ++ [item], slots)
  else (done ++ [item], slots)

/-- `createOptimizedScheduleFixed(tasks, timeSlots, stressLevel, mood)`:
the three-strategy allocator.  `stressLevel` and `mood` are parameters of
the source function but are never read by it. -/
def createOptimizedScheduleFixed (tasks : List AnalyzedTask) (timeSlots : List TimeSlot)
    (stressLevel : Nat) (mood : String) : List ScheduleItem :=
  if tasks = [] ∨ timeSlots = [] then tasks.map unavailableItem
  else
    let availableSlots := timeSlots.map
      (fun slot => { base := slot, remaining_time := slot.duration_minutes, used := false })
    let totalTaskTime := (tasks.map (fun t => t.base.estimated_duration)).sum
    let totalAvailableTime := (timeSlots.map (fun s => s.duration_minutes)).sum
    let r1 := phase1Go availableSlots [] tasks []
    let r2 := r1.2.2.foldl (phase2Step totalTaskTime totalAvailableTime) (r1.1, r1.2.1)
    (r2.1.foldl rescueStep ([], r2.2)).1

/-- Stable descending insertion by `final_priority`: the unique stable
order produced by `analyzedTasks.sort((a, b) => b.analysis.final_priority -
a.analysis.final_priority)` (ECMAScript sort is stable). -/
def insertByPriority (t : AnalyzedTask) : List AnalyzedTask → List AnalyzedTask
  | [] => [t]
  | h :: rest =>
    if h.analysis.final_priority ≤ t.analysis.final_priority then t :: h :: rest
    else h :: insertByPriority t rest

/-- Stable sort, descending by `final_priority`. -/
def sortByPriorityDesc : List AnalyzedTask → List AnalyzedTask
  | [] => []
  | t :: rest => insertByPriority t (sortByPriorityDesc rest)

/-- `getStressImpact(level)`. -/
def getStressImpact (level : Nat) : String :=
  if 8 ≤ level then "High stress significantly limits task capacity"
  else if 5 ≤ level then "Moderate stress affects task selection"
  else "Low stress allows for optimal productivity"

/-- `getStressActions(level)`. -/
def getStressActions (level : Nat) : List String :=
  if 7 ≤ level then ["simplify_tasks", "add_breaks", "postpone_non_urgent"]
  else if 4 ≤ level then ["balance_tasks", "moderate_breaks"]
  else ["challenge_optimal", "minimal_breaks"]

/-- `generateRecommendations(schedule, stressLevel)`. -/
def generateRecommendations (schedule : List ScheduleItem) (stressLevel : Nat) :
    List String :=
  let unscheduled := (schedule.filter (fun it => it.completion_status == "not_scheduled")).length
  let partialCount := (schedule.filter (fun it => it.completion_status == "partial")).length
  let scheduled := (schedule.filter (fun it => 0 < it.allocated_duration)).length
  let recommendations :=
    if scheduled = schedule.length then ["All tasks successfully scheduled!"]
    else
      (if 0 < unscheduled then
        [toString unscheduled ++ " tasks need additional time slots - consider extending your schedule"]
      else []) ++
      (if 0 < partialCount then
        [toString partialCount ++ " tasks are partially scheduled - plan follow-up sessions"]
      else [])
  recommendations ++
    (if 7 ≤ stressLevel then ["High stress detected - take breaks between tasks"] else [])

/-- `stress_analysis` part of the result. -/
structure StressAnalysis where
  level : Nat
  impact : String
  recommended_actions : List String
deriving Repr, DecidableEq

/-- `task_analysis` part of the result. -/
structure TaskAnalysis where
  total_tasks : Nat
  scheduled_tasks : Nat
deriving Repr, DecidableEq

/-- `insights.scheduling_summary` part of the result. -/
structure SchedulingSummary where
  total_work_hours : ℚ
  average_scheduling_confidence : ℚ
deriving Repr, DecidableEq

/-- `insights` part of the result. -/
structure Insights where
  scheduling_summary : SchedulingSummary
  mood_optimization : String
  recommendations : List String
deriving Repr, DecidableEq

/-- `ai_metadata` part of the result (`generated_at` is the wall-clock
timestamp `new Date()` rendered by the source as an ISO string). -/
structure AiMetadata where
  ai_enabled : Bool
  analysis_method : String
  generated_at : Int
deriving Repr, DecidableEq

/-- The full return value of `processScheduleLocally`. -/
structure ScheduleResult where
  optimized_schedule : List ScheduleItem
  stress_analysis : StressAnalysis
  task_analysis : TaskAnalysis
  insights : Insights
  ai_metadata : AiMetadata
deriving Repr, DecidableEq

/-- `processScheduleLocally(tasks, timeSlots, stressLevel, mood)`: analyze
every task, sort descending by final priority (stable), run the allocator,
and build the result record.  `now` is the wall-clock time read by the
source through `new Date()`. -/
def processScheduleLocally (tasks : List Task) (timeSlots : List TimeSlot)
    (stressLevel : Nat) (mood : String) (now : Int) : ScheduleResult :=
  let analyzedTasks := tasks.map (analyzeTask now stressLevel)
  let sorted := sortByPriorityDesc analyzedTasks
  let schedule := createOptimizedScheduleFixed sorted timeSlots stressLevel mood
  { optimized_schedule := schedule
    stress_analysis :=
      { level := stressLevel
        impact := getStressImpact stressLevel
        recommended_actions := getStressActions stressLevel }
    task_analysis :=
      { total_tasks := tasks.length
        scheduled_tasks := (schedule.filter (fun it => 0 < it.allocated_duration)).length }
    insights :=
      { scheduling_summary :=
          { total_work_hours :=
              ((schedule.map (fun it => it.allocated_duration)).sum : ℚ) / 60
            average_scheduling_confidence := 0.85 }
        mood_optimization := "Schedule optimized for " ++ mood ++ " mood state"
        recommendations := generateRecommendations schedule stressLevel }
    ai_metadata :=
      { ai_enabled := true
        analysis_method := "Local AI Agent - Fixed"
        generated_at := now } }

/-- Contribution of one schedule item to the minutes allocated inside the
window at index `j`. -/
def contrib (j : Nat) (it : ScheduleItem) : Nat :=
  if it.time_block = some j then it.allocated_duration else 0

/-- Total minutes allocated by a schedule inside the window at index `j`. -/
def allocSum (j : Nat) (sched : List ScheduleItem) : Nat :=
  (sched.map (contrib j)).sum

/-- Minutes of a working slot still reachable by later allocations: a used
slot is skipped by every slot search, so none of its remaining time is. -/
def usable (s : Slot) : Nat :=
  if s.used then 0 else s.remaining_time

/-- Capacity invariant tying a schedule to the working slot array: per
window, allocated minutes plus still-reachable minutes never exceed the
window's original duration. -/
def SlotsOK (sched : List ScheduleItem) (slots : List Slot) : Prop :=
  ∀ j (hj : j < slots.length),
    allocSum j sched + usable (slots.get ⟨j, hj⟩) ≤ (slots.get ⟨j, hj⟩).base.duration_minutes

/-- Shape invariant of every schedule item the engine ever produces. -/
def ItemOK (it : ScheduleItem) : Prop :=
  (it.scheduling_confidence = 0 ∨ it.scheduling_confidence = 0.5 ∨
    it.scheduling_confidence = 0.6 ∨ it.scheduling_confidence = 0.8 ∨
    it.scheduling_confidence = 0.9) ∧
  (it.completion_status = "not_scheduled" →
    it.time_block = none ∧ it.allocated_duration = 0) ∧
  (it.completion_status = "partial" →
    0 < it.allocated_duration ∧ it.allocated_duration < it.task.base.estimated_duration) ∧
  (it.completion_status = "scaled" →
    it.allocated_duration = it.task.base.estimated_duration)

/-- Every item of a schedule satisfies `ItemOK`. -/
def ItemsOK (sched : List ScheduleItem) : Prop :=
  ∀ it ∈ sched, ItemOK it

/-- The underlying windows of a working slot array. -/
def basesOf (slots : List Slot) : List TimeSlot :=
  slots.map (fun s => s.base)

/-- Multiset of task ids carried by a schedule. -/
def idsOf (sched : List ScheduleItem) : Multiset Nat :=
  ↑(sched.map (fun it => it.task.base.id))

/-- Multiset of task ids of a task list. -/
def tidsOf (l : List AnalyzedTask) : Multiset Nat :=
  ↑(l.map (fun t => t.base.id))

/-- A concrete task for witnesses and counterexamples. -/
def sampleTask (id dur : Nat) (priority : String) (deadline : Option JSDate) : Task :=
  { id := id, title := "t", priority := priority, estimated_duration := dur
    deadline := deadline }

/-- A concrete window for witnesses and counterexamples. -/
def sampleWindow (d : Nat) : TimeSlot :=
  { duration_minutes := d, label := "w" }

/-- Any index/slot pair produced by the strategy-1 search satisfies any
predicate that holds of the running best and of every qualifying slot of
the scanned list (at its absolute index). -/
theorem bestFitFrom_qual (dur : Nat) (P : Nat → Slot → Prop) :
    ∀ (l : List Slot) (i : Nat) (best : Option (Nat × Slot)),
      (∀ bi bs, best = some (bi, bs) → P bi bs) →
      (∀ j (hj : j < l.length), (l.get ⟨j, hj⟩).used = false →
        dur ≤ (l.get ⟨j, hj⟩).remaining_time → P (i + j) (l.get ⟨j, hj⟩)) →
      ∀ bi bs, bestFitFrom dur l i best = some (bi, bs) → P bi bs := by
  intro l
  induction l with
  | nil => intro i best hbest _ bi bs h; exact hbest bi bs h
  | cons s rest ih =>
    intro i best hbest hstep bi bs h
    have h0 : s.used = false → dur ≤ s.remaining_time → P i s := by
      intro hu hd
      have := hstep 0 (by simp) (by simpa using hu) (by simpa using hd)
      simpa using this
    have hstep' : ∀ j (hj : j < rest.length), (rest.get ⟨j, hj⟩).used = false →
        dur ≤ (rest.get ⟨j, hj⟩).remaining_time → P (i + 1 + j) (rest.get ⟨j, hj⟩) := by
      intro j hj hu hd
      have hj' : j + 1 < (s :: rest).length := by simp; omega
      have hget : (s :: rest).get ⟨j + 1, hj'⟩ = rest.get ⟨j, hj⟩ := rfl
      have := hstep (j + 1) hj' (by rw [hget]; exact hu) (by rw [hget]; exact hd)
      rw [hget] at this
      have harith : i + (j + 1) = i + 1 + j := by omega
      rwa [harith] at this
    cases best with
    | none =>
      have hunf : bestFitFrom dur (s :: rest) i none =
          if s.used = false ∧ dur ≤ s.remaining_time then
            bestFitFrom dur rest (i + 1) (some (i, s))
          else bestFitFrom dur rest (i + 1) none := rfl
      rw [hunf] at h
      by_cases hc : s.used = false ∧ dur ≤ s.remaining_time
      · rw [if_pos hc] at h
        exact ih (i + 1) (some (i, s))
          (by intro bi1 bs1 he; cases he; exact h0 hc.1 hc.2) hstep' bi bs h
      · rw [if_neg hc] at h
        exact ih (i + 1) none (by intro _ _ he; cases he) hstep' bi bs h
    | some p =>
      obtain ⟨bi0, bs0⟩ := p
      have hunf : bestFitFrom dur (s :: rest) i (some (bi0, bs0)) =
          if s.used = false ∧ dur ≤ s.remaining_time then
            if s.remaining_time - dur < bs0.remaining_time - dur then
              bestFitFrom dur rest (i + 1) (some (i, s))
            else bestFitFrom dur rest (i + 1) (some (bi0, bs0))
          else bestFitFrom dur rest (i + 1) (some (bi0, bs0)) := rfl
      rw [hunf] at h
      by_cases hc : s.used = false ∧ dur ≤ s.remaining_time
      · rw [if_pos hc] at h
        by_cases hlt : s.remaining_time - dur < bs0.remaining_time - dur
        · rw [if_pos hlt] at h
          exact ih (i + 1) (some (i, s))
            (by intro bi1 bs1 he; cases he; exact h0 hc.1 hc.2) hstep' bi bs h
        · rw [if_neg hlt] at h
          exact ih (i + 1) (some (bi0, bs0))
            (by intro bi1 bs1 he; cases he; exact hbest bi0 bs0 rfl) hstep' bi bs h
      · rw [if_neg hc] at h
        exact ih (i + 1) (some (bi0, bs0))
          (by intro bi1 bs1 he; cases he; exact hbest bi0 bs0 rfl) hstep' bi bs h

/-- The slot chosen by the strategy-1 search sits at the returned index of
the array, is unused, and has room for the task. -/
theorem bestFit_qual (dur : Nat) (slots : List Slot) (bi : Nat) (bs : Slot)
    (h : bestFit dur slots = some (bi, bs)) :
    ∃ hlt : bi < slots.length,
      slots.get ⟨bi, hlt⟩ = bs ∧ bs.used = false ∧ dur ≤ bs.remaining_time := by
  refine bestFitFrom_qual dur
    (fun bi bs => ∃ hlt : bi < slots.length,
      slots.get ⟨bi, hlt⟩ = bs ∧ bs.used = false ∧ dur ≤ bs.remaining_time)
    slots 0 none (by intro _ _ he; cases he) ?_ bi bs h
  intro j hj hu hd
  have hz : 0 + j = j := by omega
  rw [hz]
  exact ⟨hj, rfl, hu, hd⟩

/-- Same as `bestFitFrom_qual` for the strategy-2 search. -/
theorem maxSlotFrom_qual (P : Nat → Slot → Prop) :
    ∀ (l : List Slot) (i maxAvail : Nat) (best : Option (Nat × Slot)),
      (∀ bi bs, best = some (bi, bs) → P bi bs) →
      (∀ j (hj : j < l.length), (l.get ⟨j, hj⟩).used = false →
        15 ≤ (l.get ⟨j, hj⟩).remaining_time → P (i + j) (l.get ⟨j, hj⟩)) →
      ∀ bi bs, maxSlotFrom l i maxAvail best = some (bi, bs) → P bi bs := by
  intro l
  induction l with
  | nil => intro i maxAvail best hbest _ bi bs h; exact hbest bi bs h
  | cons s rest ih =>
    intro i maxAvail best hbest hstep bi bs h
    have h0 : s.used = false → 15 ≤ s.remaining_time → P i s := by
      intro hu hd
      have := hstep 0 (by simp) (by simpa using hu) (by simpa using hd)
      simpa using this
    have hstep' : ∀ j (hj : j < rest.length), (rest.get ⟨j, hj⟩).used = false →
        15 ≤ (rest.get ⟨j, hj⟩).remaining_time → P (i + 1 + j) (rest.get ⟨j, hj⟩) := by
      intro j hj hu hd
      have hj' : j + 1 < (s :: rest).length := by simp; omega
      have hget : (s :: rest).get ⟨j + 1, hj'⟩ = rest.get ⟨j, hj⟩ := rfl
      have := hstep (j + 1) hj' (by rw [hget]; exact hu) (by rw [hget]; exact hd)
      rw [hget] at this
      have harith : i + (j + 1) = i + 1 + j := by omega
      rwa [harith] at this
    have hunf : maxSlotFrom (s :: rest) i maxAvail best =
        if s.used = false ∧ maxAvail < s.remaining_time ∧ 15 ≤ s.remaining_time then
          maxSlotFrom rest (i + 1) s.remaining_time (some (i, s))
        else maxSlotFrom rest (i + 1) maxAvail best := rfl
    rw [hunf] at h
    by_cases hc : s.used = false ∧ maxAvail < s.remaining_time ∧ 15 ≤ s.remaining_time
    · rw [if_pos hc] at h
      exact ih (i + 1) s.remaining_time (some (i, s))
        (by intro bi1 bs1 he; cases he; exact h0 hc.1 hc.2.2) hstep' bi bs h
    · rw [if_neg hc] at h
      exact ih (i + 1) maxAvail best hbest hstep' bi bs h

/-- The slot chosen by the strategy-2 search sits at the returned index of
the array, is unused, and has at least 15 minutes remaining. -/
theorem maxSlot_qual (slots : List Slot) (bi : Nat) (bs : Slot)
    (h : maxSlot slots = some (bi, bs)) :
    ∃ hlt : bi < slots.length,
      slots.get ⟨bi, hlt⟩ = bs ∧ bs.used = false ∧ 15 ≤ bs.remaining_time := by
  refine maxSlotFrom_qual
    (fun bi bs => ∃ hlt : bi < slots.length,
      slots.get ⟨bi, hlt⟩ = bs ∧ bs.used = false ∧ 15 ≤ bs.remaining_time)
    slots 0 0 none (by intro _ _ he; cases he) ?_ bi bs h
  intro j hj hu hd
  have hz : 0 + j = j := by omega
  rw [hz]
  exact ⟨hj, rfl, hu, hd⟩

/-- Same as `bestFitFrom_qual` for the strategy-3 search. -/
theorem firstRescueFrom_qual (P : Nat → Slot → Prop) :
    ∀ (l : List Slot) (i : Nat),
      (∀ j (hj : j < l.length), (l.get ⟨j, hj⟩).used = false →
        10 ≤ (l.get ⟨j, hj⟩).remaining_time → P (i + j) (l.get ⟨j, hj⟩)) →
      ∀ bi bs, firstRescueFrom l i = some (bi, bs) → P bi bs := by
  intro l
  induction l with
  | nil => intro i _ bi bs h; exact absurd h (by simp [firstRescueFrom])
  | cons s rest ih =>
    intro i hstep bi bs h
    have hstep' : ∀ j (hj : j < rest.length), (rest.get ⟨j, hj⟩).used = false →
        10 ≤ (rest.get ⟨j, hj⟩).remaining_time → P (i + 1 + j) (rest.get ⟨j, hj⟩) := by
      intro j hj hu hd
      have hj' : j + 1 < (s :: rest).length := by simp; omega
      have hget : (s :: rest).get ⟨j + 1, hj'⟩ = rest.get ⟨j, hj⟩ := rfl
      have := hstep (j + 1) hj' (by rw [hget]; exact hu) (by rw [hget]; exact hd)
      rw [hget] at this
      have harith : i + (j + 1) = i + 1 + j := by omega
      rwa [harith] at this
    have hunf : firstRescueFrom (s :: rest) i =
        if s.used = false ∧ 10 ≤ s.remaining_time then some (i, s)
        else firstRescueFrom rest (i + 1) := rfl
    rw [hunf] at h
    by_cases hc : s.used = false ∧ 10 ≤ s.remaining_time
    · rw [if_pos hc] at h
      cases h
      have := hstep 0 (by simp) (by simpa using hc.1) (by simpa using hc.2)
      simpa using this
    · rw [if_neg hc] at h
      exact ih (i + 1) hstep' bi bs h

/-- The slot found by the strategy-3 search sits at the returned index of
the array, is unused, and has at least 10 minutes remaining. -/
theorem firstRescue_qual (slots : List Slot) (bi : Nat) (bs : Slot)
    (h : firstRescue slots = some (bi, bs)) :
    ∃ hlt : bi < slots.length,
      slots.get ⟨bi, hlt⟩ = bs ∧ bs.used = false ∧ 10 ≤ bs.remaining_time := by
  refine firstRescueFrom_qual
    (fun bi bs => ∃ hlt : bi < slots.length,
      slots.get ⟨bi, hlt⟩ = bs ∧ bs.used = false ∧ 10 ≤ bs.remaining_time)
    slots 0 ?_ bi bs h
  intro j hj hu hd
  have hz : 0 + j = j := by omega
  rw [hz]
  exact ⟨hj, rfl, hu, hd⟩

/-- The strategy-3 search succeeds whenever some unused slot has at least
10 minutes remaining. -/
theorem firstRescueFrom_complete :
    ∀ (l : List Slot) (i : Nat),
      (∃ j, ∃ hj : j < l.length,
        (l.get ⟨j, hj⟩).used = false ∧ 10 ≤ (l.get ⟨j, hj⟩).remaining_time) →
      ∃ si s, firstRescueFrom l i = some (si, s) := by
  intro l
  induction l with
  | nil => intro i h; obtain ⟨j, hj, _⟩ := h; simp at hj
  | cons s rest ih =>
    intro i h
    have hunf : firstRescueFrom (s :: rest) i =
        if s.used = false ∧ 10 ≤ s.remaining_time then some (i, s)
        else firstRescueFrom rest (i + 1) := rfl
    rw [hunf]
    by_cases hc : s.used = false ∧ 10 ≤ s.remaining_time
    · rw [if_pos hc]; exact ⟨i, s, rfl⟩
    · rw [if_neg hc]
      obtain ⟨j, hj, hu, hd⟩ := h
      cases j with
      | zero => exact absurd ⟨hu, hd⟩ hc
      | succ j' =>
        have hj' : j' < rest.length := by simpa using Nat.lt_of_succ_lt_succ (by simpa using hj)
        exact ih (i + 1) ⟨j', hj', hu, hd⟩

theorem allocSum_nil (j : Nat) : allocSum j [] = 0 := rfl

theorem allocSum_append (j : Nat) (a b : List ScheduleItem) :
    allocSum j (a ++ b) = allocSum j a + allocSum j b := by
  simp [allocSum]

theorem allocSum_cons (j : Nat) (it : ScheduleItem) (l : List ScheduleItem) :
    allocSum j (it :: l) = contrib j it + allocSum j l := by
  simp [allocSum]

theorem contrib_of_none (j : Nat) (it : ScheduleItem) (h : it.time_block = none) :
    contrib j it = 0 := by
  simp [contrib, h]

theorem contrib_of_some (j bi : Nat) (it : ScheduleItem) (h : it.time_block = some bi) :
    contrib j it = if bi = j then it.allocated_duration else 0 := by
  simp [contrib, h]

/-- Consuming capacity preserves the capacity invariant: append one item
assigned `a` minutes at index `bi` and replace the slot there by any slot
with the same window whose reachable minutes dropped by at least `a`. -/
theorem slotsOK_consume
    (sched : List ScheduleItem) (slots : List Slot) (bi : Nat) (hbi : bi < slots.length)
    (bs s' : Slot) (hbs : slots.get ⟨bi, hbi⟩ = bs) (hused : bs.used = false)
    (item : ScheduleItem) (htb : item.time_block = some bi)
    (ha : item.allocated_duration ≤ bs.remaining_time)
    (husable : usable s' ≤ bs.remaining_time - item.allocated_duration)
    (hbase : s'.base = bs.base)
    (hOK : SlotsOK sched slots) :
    SlotsOK (sched ++ [item]) (slots.set bi s') := by
  intro j hj
  have hj' : j < slots.length := by simpa using hj
  have hsum : allocSum j (sched ++ [item]) = allocSum j sched + contrib j item := by
    simp [allocSum_append, allocSum_cons, allocSum_nil]
  by_cases hji : j = bi
  · subst hji
    have hget : (slots.set j s').get ⟨j, hj⟩ = s' := by
      have := List.getElem_set_self (l := slots) (i := j) (a := s') (h := by simpa using hj)
      simpa [List.get_eq_getElem] using this
    have hcj : contrib j item = item.allocated_duration := by
      rw [contrib_of_some j j item htb]; simp
    have hOKj := hOK j hj'
    rw [hbs] at hOKj
    rw [hsum, hget, hcj, hbase, ← hbs]
    have hub : usable bs = bs.remaining_time := by simp [usable, hused]
    rw [hub] at hOKj
    rw [hbs]
    omega
  · have hget : (slots.set bi s').get ⟨j, hj⟩ = slots.get ⟨j, hj'⟩ := by
      have := List.getElem_set_of_ne (l := slots) (a := s')
        (h := fun he => hji he.symm) (by simpa using hj)
      simpa [List.get_eq_getElem] using this
    have hcj : contrib j item = 0 := by
      rw [contrib_of_some j bi item htb, if_neg (fun he => hji he.symm)]
    rw [hsum, hget, hcj]
    simpa using hOK j hj'

/-- Appending an item that contributes nowhere (no `time_block`) preserves
the capacity invariant. -/
theorem slotsOK_append_none (sched : List ScheduleItem) (slots : List Slot)
    (item : ScheduleItem) (htb : item.time_block = none) (hOK : SlotsOK sched slots) :
    SlotsOK (sched ++ [item]) slots := by
  intro j hj
  have hsum : allocSum j (sched ++ [item]) = allocSum j sched + contrib j item := by
    simp [allocSum_append, allocSum_cons, allocSum_nil]
  rw [hsum, contrib_of_none j item htb]
  simpa using hOK j hj

theorem itemOK_unavailable (t : AnalyzedTask) : ItemOK (unavailableItem t) := by
  refine ⟨Or.inl (by norm_num [unavailableItem]), fun _ => ⟨rfl, rfl⟩, fun h => ?_,
    fun h => ?_⟩ <;> simp [unavailableItem] at h

theorem itemOK_perfect (t : AnalyzedTask) (bi : Nat) (bs : Slot) :
    ItemOK (perfectItem t bi bs) := by
  refine ⟨Or.inr (Or.inr (Or.inr (Or.inr rfl))), fun h => ?_, fun h => ?_, fun h => ?_⟩ <;>
    simp [perfectItem] at h

theorem itemOK_noSlot (t : AnalyzedTask) : ItemOK (noSlotItem t) := by
  refine ⟨Or.inl (by norm_num [noSlotItem]), fun _ => ⟨rfl, rfl⟩, fun h => ?_,
    fun h => ?_⟩ <;> simp [noSlotItem] at h

theorem itemOK_fitted (T A : Nat) (t : AnalyzedTask) (bi : Nat) (bs : Slot)
    (h15 : 15 ≤ bs.remaining_time) :
    ItemOK (fittedItem T A t bi bs) := by
  have hstat : (fittedItem T A t bi bs).completion_status =
      if min t.base.estimated_duration bs.remaining_time < t.base.estimated_duration then
        "partial"
      else if A < T then "scaled" else "complete" := rfl
  have halloc : (fittedItem T A t bi bs).allocated_duration =
      min t.base.estimated_duration bs.remaining_time := rfl
  have hdur : (fittedItem T A t bi bs).task.base.estimated_duration =
      t.base.estimated_duration := rfl
  have hconf : (fittedItem T A t bi bs).scheduling_confidence =
      if min t.base.estimated_duration bs.remaining_time < t.base.estimated_duration then
        (0.6 : ℚ)
      else 0.8 := rfl
  by_cases hlt : min t.base.estimated_duration bs.remaining_time < t.base.estimated_duration
  · refine ⟨Or.inr (Or.inr (Or.inl (by rw [hconf, if_pos hlt]))), fun h => ?_, fun _ => ?_,
      fun h => ?_⟩
    · rw [hstat, if_pos hlt] at h; simp at h
    · rw [halloc, hdur]; omega
    · rw [hstat, if_pos hlt] at h; simp at h
  · refine ⟨Or.inr (Or.inr (Or.inr (Or.inl (by rw [hconf, if_neg hlt])))), fun h => ?_,
      fun h => ?_, fun _ => ?_⟩
    · rw [hstat, if_neg hlt] at h
      by_cases hsc : A < T
      · rw [if_pos hsc] at h; simp at h
      · rw [if_neg hsc] at h; simp at h
    · rw [hstat, if_neg hlt] at h
      by_cases hsc : A < T
      · rw [if_pos hsc] at h; simp at h
      · rw [if_neg hsc] at h; simp at h
    · rw [halloc, hdur]; omega

theorem itemOK_rescued (item : ScheduleItem) (si : Nat) (s : Slot)
    (h10 : 10 ≤ s.remaining_time) : ItemOK (rescuedItem item si s) := by
  have hstat : (rescuedItem item si s).completion_status =
      if min item.task.base.estimated_duration s.remaining_time <
          item.task.base.estimated_duration then "partial"
      else "scaled" := rfl
  have halloc : (rescuedItem item si s).allocated_duration =
      min item.task.base.estimated_duration s.remaining_time := rfl
  have hdur : (rescuedItem item si s).task.base.estimated_duration =
      item.task.base.estimated_duration := rfl
  by_cases hlt : min item.task.base.estimated_duration s.remaining_time <
      item.task.base.estimated_duration
  · refine ⟨Or.inr (Or.inl rfl), fun h => ?_, fun _ => ?_, fun h => ?_⟩
    · rw [hstat, if_pos hlt] at h; simp at h
    · rw [halloc, hdur]; omega
    · rw [hstat, if_pos hlt] at h; simp at h
  · refine ⟨Or.inr (Or.inl rfl), fun h => ?_, fun h => ?_, fun _ => ?_⟩
    · rw [hstat, if_neg hlt] at h; simp at h
    · rw [hstat, if_neg hlt] at h; simp at h
    · rw [halloc, hdur]; omega

theorem itemsOK_append (sched : List ScheduleItem) (item : ScheduleItem)
    (h : ItemsOK sched) (hit : ItemOK item) : ItemsOK (sched ++ [item]) := by
  intro it hmem
  rcases List.mem_append.mp hmem with hl | hr
  · exact h it hl
  · rw [List.mem_singleton.mp hr]; exact hit

theorem phase1Go_nil (slots : List Slot) (surv : List AnalyzedTask) (sched : List ScheduleItem) :
    phase1Go slots surv [] sched = (sched, slots, surv) := rfl

theorem phase1Go_cons_some (slots : List Slot) (surv : List AnalyzedTask)
    (task skipped : AnalyzedTask) (rest' : List AnalyzedTask) (sched : List ScheduleItem)
    (bi : Nat) (bs : Slot)
    (hbf : bestFit task.base.estimated_duration slots = some (bi, bs)) :
    phase1Go slots surv (task :: skipped :: rest') sched =
      phase1Go
        (if bs.remaining_time = task.base.estimated_duration then
          slots.set bi { bs with used := true }
        else slots.set bi { bs with remaining_time := bs.remaining_time - task.base.estimated_duration })
        (surv ++ [skipped]) rest' (sched ++ [perfectItem task bi bs]) := by
  conv_lhs => rw [phase1Go.eq_def]
  dsimp only
  rw [hbf]

theorem phase1Go_one_some (slots : List Slot) (surv : List AnalyzedTask)
    (task : AnalyzedTask) (sched : List ScheduleItem) (bi : Nat) (bs : Slot)
    (hbf : bestFit task.base.estimated_duration slots = some (bi, bs)) :
    phase1Go slots surv [task] sched =
      (sched ++ [perfectItem task bi bs],
        (if bs.remaining_time = task.base.estimated_duration then
          slots.set bi { bs with used := true }
        else slots.set bi { bs with remaining_time := bs.remaining_time - task.base.estimated_duration }),
        surv) := by
  conv_lhs => rw [phase1Go.eq_def]
  dsimp only
  rw [hbf]

theorem phase1Go_cons_none (slots : List Slot) (surv : List AnalyzedTask)
    (task : AnalyzedTask) (rest : List AnalyzedTask) (sched : List ScheduleItem)
    (hbf : bestFit task.base.estimated_duration slots = none) :
    phase1Go slots surv (task :: rest) sched =
      phase1Go slots (surv ++ [task]) rest sched := by
  conv_lhs => rw [phase1Go.eq_def]
  dsimp only
  rw [hbf]

theorem basesOf_set (slots : List Slot) (bi : Nat) (hbi : bi < slots.length) (s' : Slot)
    (hbase : s'.base = (slots.get ⟨bi, hbi⟩).base) :
    basesOf (slots.set bi s') = basesOf slots := by
  apply List.ext_getElem
  · simp [basesOf]
  · intro i h1 h2
    have hi : i < slots.length := by simpa [basesOf] using h2
    simp only [basesOf, List.getElem_map]
    by_cases hib : i = bi
    · subst hib
      rw [List.getElem_set_self (h := by simpa using hi), hbase]
      simp [List.get_eq_getElem]
    · rw [List.getElem_set_of_ne (fun he => hib he.symm)]

theorem idsOf_append_one (sched : List ScheduleItem) (it : ScheduleItem) :
    idsOf (sched ++ [it]) = idsOf sched + {it.task.base.id} := by
  simp only [idsOf, List.map_append, List.map_cons, List.map_nil]
  rw [← Multiset.coe_singleton, Multiset.coe_add]

theorem tidsOf_append_one (l : List AnalyzedTask) (t : AnalyzedTask) :
    tidsOf (l ++ [t]) = tidsOf l + {t.base.id} := by
  simp only [tidsOf, List.map_append, List.map_cons, List.map_nil]
  rw [← Multiset.coe_singleton, Multiset.coe_add]

theorem tidsOf_cons (t : AnalyzedTask) (l : List AnalyzedTask) :
    tidsOf (t :: l) = {t.base.id} + tidsOf l := by
  simp only [tidsOf, List.map_cons]
  rw [← Multiset.coe_singleton, Multiset.coe_add]
  rfl

theorem tidsOf_nil : tidsOf [] = 0 := rfl

/-- Strategy 1 preserves the item and capacity invariants, leaves the
underlying windows unchanged, and in total keeps one task id per task:
ids of the items pushed plus ids of the tasks left over are exactly the
ids already in the schedule plus the survivors' plus the pending ones. -/
theorem phase1Go_ok :
    ∀ (pending survivors : List AnalyzedTask) (slots : List Slot) (sched : List ScheduleItem),
      ItemsOK sched → SlotsOK sched slots →
      ItemsOK (phase1Go slots survivors pending sched).1 ∧
      SlotsOK (phase1Go slots survivors pending sched).1
        (phase1Go slots survivors pending sched).2.1 ∧
      basesOf (phase1Go slots survivors pending sched).2.1 = basesOf slots ∧
      idsOf (phase1Go slots survivors pending sched).1 +
          tidsOf (phase1Go slots survivors pending sched).2.2 =
        idsOf sched + tidsOf survivors + tidsOf pending := by
  intro pending survivors slots sched
  induction slots, survivors, pending, sched using phase1Go.induct with
  | case1 slots surv sched =>
    intro hI hS
    rw [phase1Go_nil]
    exact ⟨hI, hS, rfl, by rw [tidsOf_nil, add_zero]⟩
  | case2 slots surv sched task dur bi bs hbf =>
    intro hI hS
    obtain ⟨hbi, hget, hused, hdur⟩ := bestFit_qual _ slots bi bs hbf
    rw [phase1Go_one_some slots surv task sched bi bs hbf]
    refine ⟨itemsOK_append _ _ hI (itemOK_perfect task bi bs), ?_, ?_, ?_⟩
    · show SlotsOK (sched ++ [perfectItem task bi bs]) _
      by_cases hex : bs.remaining_time = task.base.estimated_duration
      · rw [if_pos hex]
        exact slotsOK_consume sched slots bi hbi bs _ hget hused _ rfl hdur
          (by simp [usable]) rfl hS
      · rw [if_neg hex]
        exact slotsOK_consume sched slots bi hbi bs _ hget hused _ rfl hdur
          (by simp [usable, hused, perfectItem]) rfl hS
    · show basesOf _ = basesOf slots
      by_cases hex : bs.remaining_time = task.base.estimated_duration
      · rw [if_pos hex]
        exact basesOf_set slots bi hbi _ (by rw [hget])
      · rw [if_neg hex]
        exact basesOf_set slots bi hbi _ (by rw [hget])
    · show idsOf (sched ++ [perfectItem task bi bs]) + tidsOf surv =
        idsOf sched + tidsOf surv + tidsOf [task]
      rw [idsOf_append_one, tidsOf_cons, tidsOf_nil, add_zero]
      show idsOf sched + {task.base.id} + tidsOf surv =
        idsOf sched + tidsOf surv + {task.base.id}
      ac_rfl
  | case3 slots surv sched task dur bi bs hbf item slots' skipped rest' ih =>
    intro hI hS
    obtain ⟨hbi, hget, hused, hdur⟩ := bestFit_qual _ slots bi bs hbf
    have hI' : ItemsOK (sched ++ [perfectItem task bi bs]) :=
      itemsOK_append _ _ hI (itemOK_perfect task bi bs)
    have hS' : SlotsOK (sched ++ [perfectItem task bi bs])
        (if bs.remaining_time = task.base.estimated_duration then
          slots.set bi { bs with used := true }
        else
          slots.set bi
            { bs with remaining_time := bs.remaining_time - task.base.estimated_duration }) := by
      by_cases hex : bs.remaining_time = task.base.estimated_duration
      · rw [if_pos hex]
        exact slotsOK_consume sched slots bi hbi bs _ hget hused _ rfl hdur
          (by simp [usable]) rfl hS
      · rw [if_neg hex]
        exact slotsOK_consume sched slots bi hbi bs _ hget hused _ rfl hdur
          (by simp [usable, hused, perfectItem]) rfl hS
    have hB' : basesOf
        (if bs.remaining_time = task.base.estimated_duration then
          slots.set bi { bs with used := true }
        else
          slots.set bi
            { bs with remaining_time := bs.remaining_time - task.base.estimated_duration }) =
        basesOf slots := by
      by_cases hex : bs.remaining_time = task.base.estimated_duration
      · rw [if_pos hex]
        exact basesOf_set slots bi hbi _ (by rw [hget])
      · rw [if_neg hex]
        exact basesOf_set slots bi hbi _ (by rw [hget])
    obtain ⟨ih1, ih2, ih3, ih4⟩ := ih hI' hS'
    rw [phase1Go_cons_some slots surv task skipped rest' sched bi bs hbf]
    refine ⟨ih1, ih2, ih3.trans hB', ?_⟩
    show idsOf (phase1Go
        (if bs.remaining_time = task.base.estimated_duration then
          slots.set bi { bs with used := true }
        else
          slots.set bi
            { bs with remaining_time := bs.remaining_time - task.base.estimated_duration })
        (surv ++ [skipped]) rest' (sched ++ [perfectItem task bi bs])).1 +
      tidsOf (phase1Go
        (if bs.remaining_time = task.base.estimated_duration then
          slots.set bi { bs with used := true }
        else
          slots.set bi
            { bs with remaining_time := bs.remaining_time - task.base.estimated_duration })
        (surv ++ [skipped]) rest' (sched ++ [perfectItem task bi bs])).2.2 =
      idsOf sched + tidsOf surv + tidsOf (task :: skipped :: rest')
    rw [ih4, idsOf_append_one, tidsOf_append_one, tidsOf_cons, tidsOf_cons]
    show idsOf sched + {task.base.id} + (tidsOf surv + {skipped.base.id}) + tidsOf rest' =
      idsOf sched + tidsOf surv + ({task.base.id} + ({skipped.base.id} + tidsOf rest'))
    ac_rfl
  | case4 slots surv sched task rest dur hbf ih =>
    intro hI hS
    obtain ⟨ih1, ih2, ih3, ih4⟩ := ih hI hS
    rw [phase1Go_cons_none slots surv task rest sched hbf]
    refine ⟨ih1, ih2, ih3, ?_⟩
    rw [ih4, tidsOf_append_one, tidsOf_cons]
    ac_rfl

/-- One strategy-2 step preserves the item and capacity invariants,
leaves the windows unchanged, and pushes exactly one item carrying the
processed task's id. -/
theorem phase2Step_ok (T A : Nat) (sched : List ScheduleItem) (slots : List Slot)
    (task : AnalyzedTask) (hI : ItemsOK sched) (hS : SlotsOK sched slots) :
    ItemsOK (phase2Step T A (sched, slots) task).1 ∧
    SlotsOK (phase2Step T A (sched, slots) task).1 (phase2Step T A (sched, slots) task).2 ∧
    basesOf (phase2Step T A (sched, slots) task).2 = basesOf slots ∧
    idsOf (phase2Step T A (sched, slots) task).1 = idsOf sched + {task.base.id} := by
  cases hms : maxSlot slots with
  | none =>
    have hunf : phase2Step T A (sched, slots) task = (sched ++ [noSlotItem task], slots) := by
      unfold phase2Step
      dsimp only
      rw [hms]
    rw [hunf]
    exact ⟨itemsOK_append _ _ hI (itemOK_noSlot task),
      slotsOK_append_none _ _ _ rfl hS, rfl, idsOf_append_one _ _⟩
  | some p =>
    obtain ⟨bi, bs⟩ := p
    obtain ⟨hbi, hget, hused, h15⟩ := maxSlot_qual slots bi bs hms
    have hunf : phase2Step T A (sched, slots) task =
        (sched ++ [fittedItem T A task bi bs],
          slots.set bi
            { bs with
              remaining_time :=
                bs.remaining_time - min task.base.estimated_duration bs.remaining_time
              used :=
                if bs.remaining_time - min task.base.estimated_duration bs.remaining_time < 15
                then true else bs.used }) := by
      unfold phase2Step
      dsimp only
      rw [hms]
    rw [hunf]
    refine ⟨itemsOK_append _ _ hI (itemOK_fitted T A task bi bs h15), ?_, ?_, ?_⟩
    · refine slotsOK_consume sched slots bi hbi bs _ hget hused _ rfl ?_ ?_ rfl hS
      · show min task.base.estimated_duration bs.remaining_time ≤ bs.remaining_time
        omega
      · by_cases hr :
          bs.remaining_time - min task.base.estimated_duration bs.remaining_time < 15
        · simp [usable, hr]
        · simp only [usable, if_neg hr, hused, if_false, Bool.false_eq_true]
          show bs.remaining_time - min task.base.estimated_duration bs.remaining_time ≤
            bs.remaining_time - min task.base.estimated_duration bs.remaining_time
          omega
    · exact basesOf_set slots bi hbi _ (by rw [hget])
    · exact idsOf_append_one _ _

/-- The whole strategy-2 fold: invariants preserved, windows unchanged,
one pushed item per remaining task. -/
theorem phase2_fold_ok (T A : Nat) :
    ∀ (rem : List AnalyzedTask) (sched : List ScheduleItem) (slots : List Slot),
      ItemsOK sched → SlotsOK sched slots →
      ItemsOK (rem.foldl (phase2Step T A) (sched, slots)).1 ∧
      SlotsOK (rem.foldl (phase2Step T A) (sched, slots)).1
        (rem.foldl (phase2Step T A) (sched, slots)).2 ∧
      basesOf (rem.foldl (phase2Step T A) (sched, slots)).2 = basesOf slots ∧
      idsOf (rem.foldl (phase2Step T A) (sched, slots)).1 = idsOf sched + tidsOf rem := by
  intro rem
  induction rem with
  | nil =>
    intro sched slots hI hS
    refine ⟨hI, hS, rfl, ?_⟩
    rw [tidsOf_nil, add_zero]
    rfl
  | cons t rest ih =>
    intro sched slots hI hS
    obtain ⟨s1, s2, s3, s4⟩ := phase2Step_ok T A sched slots t hI hS
    rw [List.foldl_cons]
    rcases hab : phase2Step T A (sched, slots) t with ⟨a, b⟩
    rw [hab] at s1 s2 s3 s4
    obtain ⟨f1, f2, f3, f4⟩ := ih a b s1 s2
    refine ⟨f1, f2, f3.trans s3, ?_⟩
    rw [f4, s4, tidsOf_cons]
    ac_rfl

/-- Rescuing an item preserves the capacity invariant: the rescued item
previously contributed nothing (it had no `time_block`), its replacement
contributes at index `si`, and the slot there loses at least that much
reachable capacity. -/
theorem slotsOK_rescue
    (done rest : List ScheduleItem) (item item' : ScheduleItem) (slots : List Slot)
    (si : Nat) (hsi : si < slots.length) (s s' : Slot)
    (hs : slots.get ⟨si, hsi⟩ = s) (hused : s.used = false)
    (htb : item'.time_block = some si)
    (htb0 : item.time_block = none)
    (ha : item'.allocated_duration ≤ s.remaining_time)
    (husable : usable s' ≤ s.remaining_time - item'.allocated_duration)
    (hbase : s'.base = s.base)
    (hOK : SlotsOK (done ++ item :: rest) slots) :
    SlotsOK ((done ++ [item']) ++ rest) (slots.set si s') := by
  intro j hj
  have hj' : j < slots.length := by simpa using hj
  have hOKj := hOK j hj'
  have hsum_old : allocSum j (done ++ item :: rest) =
      allocSum j done + allocSum j rest := by
    rw [allocSum_append, allocSum_cons, contrib_of_none j item htb0]
    omega
  have hsum_new : allocSum j ((done ++ [item']) ++ rest) =
      allocSum j done + contrib j item' + allocSum j rest := by
    rw [allocSum_append, allocSum_append, allocSum_cons, allocSum_nil]
    omega
  rw [hsum_old] at hOKj
  by_cases hji : j = si
  · subst hji
    have hgetnew : (slots.set j s').get ⟨j, hj⟩ = s' := by
      have := List.getElem_set_self (l := slots) (i := j) (a := s') (h := by simpa using hj')
      simpa [List.get_eq_getElem] using this
    have hcj : contrib j item' = item'.allocated_duration := by
      rw [contrib_of_some j j item' htb]
      simp
    rw [hsum_new, hgetnew, hcj, hbase]
    rw [hs] at hOKj
    have hub : usable s = s.remaining_time := by simp [usable, hused]
    rw [hub] at hOKj
    omega
  · have hgetnew : (slots.set si s').get ⟨j, hj⟩ = slots.get ⟨j, hj'⟩ := by
      have := List.getElem_set_of_ne (l := slots) (a := s')
        (h := fun he => hji he.symm) (by simpa using hj')
      simpa [List.get_eq_getElem] using this
    have hcj : contrib j item' = 0 := by
      rw [contrib_of_some j si item' htb, if_neg (fun he => hji he.symm)]
    rw [hsum_new, hgetnew, hcj]
    omega

theorem itemsOK_middle (done rest : List ScheduleItem) (item item' : ScheduleItem)
    (hI : ItemsOK (done ++ item :: rest)) (h' : ItemOK item') :
    ItemsOK ((done ++ [item']) ++ rest) := by
  intro it hmem
  rw [List.append_assoc, List.singleton_append] at hmem
  rcases List.mem_append.mp hmem with hd | hx
  · exact hI it (List.mem_append.mpr (Or.inl hd))
  · rcases List.mem_cons.mp hx with he | hr
    · rw [he]; exact h'
    · exact hI it (List.mem_append.mpr (Or.inr (List.mem_cons.mpr (Or.inr hr))))

theorem idsOf_middle (done rest : List ScheduleItem) (item item' : ScheduleItem)
    (h : item'.task.base.id = item.task.base.id) :
    idsOf ((done ++ [item']) ++ rest) = idsOf (done ++ item :: rest) := by
  simp [idsOf, h]

/-- The whole strategy-3 fold over the schedule: invariants preserved,
windows unchanged, and the processed items carry exactly the ids of the
items they replace. -/
theorem phase3_fold_ok :
    ∀ (pending done : List ScheduleItem) (slots : List Slot),
      ItemsOK (done ++ pending) → SlotsOK (done ++ pending) slots →
      ItemsOK (pending.foldl rescueStep (done, slots)).1 ∧
      SlotsOK (pending.foldl rescueStep (done, slots)).1
        (pending.foldl rescueStep (done, slots)).2 ∧
      basesOf (pending.foldl rescueStep (done, slots)).2 = basesOf slots ∧
      idsOf (pending.foldl rescueStep (done, slots)).1 = idsOf (done ++ pending) := by
  intro pending
  induction pending with
  | nil =>
    intro done slots hI hS
    rw [List.append_nil] at hI hS
    refine ⟨hI, hS, rfl, ?_⟩
    rw [List.append_nil]
    rfl
  | cons item rest ih =>
    intro done slots hI hS
    rw [List.foldl_cons]
    by_cases hq : item.completion_status = "not_scheduled" ∧
        (item.task.base.priority = "high" ∨ (0.8 : ℚ) < item.deadline_urgency)
    · cases hfr : firstRescue slots with
      | none =>
        have hunf : rescueStep (done, slots) item = (done ++ [item], slots) := by
          unfold rescueStep
          dsimp only
          rw [if_pos hq, hfr]
        rw [hunf]
        have hI' : ItemsOK ((done ++ [item]) ++ rest) := by
          rw [List.append_assoc, List.singleton_append]
          exact hI
        have hS' : SlotsOK ((done ++ [item]) ++ rest) slots := by
          rw [List.append_assoc, List.singleton_append]
          exact hS
        obtain ⟨f1, f2, f3, f4⟩ := ih (done ++ [item]) slots hI' hS'
        refine ⟨f1, f2, f3, ?_⟩
        rw [f4, List.append_assoc, List.singleton_append]
      | some p =>
        obtain ⟨si, ss⟩ := p
        obtain ⟨hsi, hget, hused, h10⟩ := firstRescue_qual slots si ss hfr
        have hunf : rescueStep (done, slots) item =
            (done ++ [rescuedItem item si ss],
              slots.set si
                { ss with
                  remaining_time :=
                    ss.remaining_time - min item.task.base.estimated_duration ss.remaining_time
                  used :=
                    if ss.remaining_time -
                        min item.task.base.estimated_duration ss.remaining_time < 10
                    then true else ss.used }) := by
          unfold rescueStep
          dsimp only
          rw [if_pos hq, hfr]
        rw [hunf]
        have hmem : item ∈ done ++ item :: rest := by simp
        obtain ⟨-, hns, -, -⟩ := hI item hmem
        obtain ⟨htbnone, -⟩ := hns hq.1
        have hS' : SlotsOK ((done ++ [rescuedItem item si ss]) ++ rest)
            (slots.set si
              { ss with
                remaining_time :=
                  ss.remaining_time - min item.task.base.estimated_duration ss.remaining_time
                used :=
                  if ss.remaining_time -
                      min item.task.base.estimated_duration ss.remaining_time < 10
                  then true else ss.used }) := by
          refine slotsOK_rescue done rest item _ slots si hsi ss _ hget hused rfl htbnone
            ?_ ?_ rfl hS
          · show min item.task.base.estimated_duration ss.remaining_time ≤ ss.remaining_time
            omega
          · by_cases hr :
              ss.remaining_time - min item.task.base.estimated_duration ss.remaining_time < 10
            · simp [usable, hr]
            · simp only [usable, if_neg hr, hused, if_false, Bool.false_eq_true]
              show ss.remaining_time - min item.task.base.estimated_duration ss.remaining_time ≤
                ss.remaining_time - min item.task.base.estimated_duration ss.remaining_time
              omega
        have hI' : ItemsOK ((done ++ [rescuedItem item si ss]) ++ rest) :=
          itemsOK_middle done rest item _ hI (itemOK_rescued item si ss h10)
        obtain ⟨f1, f2, f3, f4⟩ := ih (done ++ [rescuedItem item si ss]) _ hI' hS'
        refine ⟨f1, f2, f3.trans (basesOf_set slots si hsi _ (by rw [hget])), ?_⟩
        rw [f4]
        exact idsOf_middle done rest item _ rfl
    · have hunf : rescueStep (done, slots) item = (done ++ [item], slots) := by
        unfold rescueStep
        dsimp only
        rw [if_neg hq]
      rw [hunf]
      have hI' : ItemsOK ((done ++ [item]) ++ rest) := by
        rw [List.append_assoc, List.singleton_append]
        exact hI
      have hS' : SlotsOK ((done ++ [item]) ++ rest) slots := by
        rw [List.append_assoc, List.singleton_append]
        exact hS
      obtain ⟨f1, f2, f3, f4⟩ := ih (done ++ [item]) slots hI' hS'
      refine ⟨f1, f2, f3, ?_⟩
      rw [f4, List.append_assoc, List.singleton_append]

/-- `phase3_fold_ok` with an empty initial accumulator. -/
theorem phase3_fold_ok_nil (pending : List ScheduleItem) (slots : List Slot)
    (hI : ItemsOK pending) (hS : SlotsOK pending slots) :
    ItemsOK (pending.foldl rescueStep ([], slots)).1 ∧
    SlotsOK (pending.foldl rescueStep ([], slots)).1
      (pending.foldl rescueStep ([], slots)).2 ∧
    basesOf (pending.foldl rescueStep ([], slots)).2 = basesOf slots ∧
    idsOf (pending.foldl rescueStep ([], slots)).1 = idsOf pending := by
  have h := phase3_fold_ok pending [] slots
    (by rw [List.nil_append]; exact hI) (by rw [List.nil_append]; exact hS)
  rw [List.nil_append] at h
  exact h

theorem itemsOK_nil : ItemsOK [] := by
  intro it hmem
  exact absurd hmem (List.not_mem_nil it)

/-- The working slot array starts with full capacity reachable. -/
theorem slotsOK_init (timeSlots : List TimeSlot) :
    SlotsOK []
      (timeSlots.map
        (fun slot => { base := slot, remaining_time := slot.duration_minutes, used := false })) := by
  intro j hj
  have hj' : j < timeSlots.length := by simpa using hj
  rw [allocSum_nil]
  simp [usable, List.get_eq_getElem, List.getElem_map]

theorem basesOf_init (timeSlots : List TimeSlot) :
    basesOf
      (timeSlots.map
        (fun slot => { base := slot, remaining_time := slot.duration_minutes, used := false })) =
      timeSlots := by
  simp only [basesOf, List.map_map]
  have hc : ((fun (s : Slot) => s.base) ∘ fun slot =>
      ({ base := slot, remaining_time := slot.duration_minutes, used := false } : Slot)) =
      fun slot => slot := rfl
  rw [hc, List.map_id']

/-- The non-empty branch of `createOptimizedScheduleFixed`, spelled out. -/
theorem createOptimized_eq (tasks : List AnalyzedTask) (timeSlots : List TimeSlot)
    (stressLevel : Nat) (mood : String) (h : ¬(tasks = [] ∨ timeSlots = [])) :
    createOptimizedScheduleFixed tasks timeSlots stressLevel mood =
      (let availableSlots := timeSlots.map
        (fun slot => { base := slot, remaining_time := slot.duration_minutes, used := false });
      let r1 := phase1Go availableSlots [] tasks [];
      let r2 := r1.2.2.foldl
        (phase2Step ((tasks.map (fun t => t.base.estimated_duration)).sum)
          ((timeSlots.map (fun s => s.duration_minutes)).sum))
        (r1.1, r1.2.1);
      (r2.1.foldl rescueStep ([], r2.2)).1) := by
  unfold createOptimizedScheduleFixed
  rw [if_neg h]

/-- The early-return branch of `createOptimizedScheduleFixed`. -/
theorem createOptimized_empty (tasks : List AnalyzedTask) (timeSlots : List TimeSlot)
    (stressLevel : Nat) (mood : String) (h : tasks = [] ∨ timeSlots = []) :
    createOptimizedScheduleFixed tasks timeSlots stressLevel mood =
      tasks.map unavailableItem := by
  unfold createOptimizedScheduleFixed
  rw [if_pos h]

/-- From the capacity invariant back to the input windows. -/
theorem slotsOK_to_conservation (sched : List ScheduleItem) (slots : List Slot)
    (timeSlots : List TimeSlot) (hS : SlotsOK sched slots) (hB : basesOf slots = timeSlots) :
    ∀ j (hj : j < timeSlots.length),
      allocSum j sched ≤ (timeSlots.get ⟨j, hj⟩).duration_minutes := by
  intro j hj
  have hlen : slots.length = timeSlots.length := by
    rw [← hB]; simp [basesOf]
  have hj' : j < slots.length := by omega
  have hSj := hS j hj'
  have hbase : (slots.get ⟨j, hj'⟩).base = timeSlots.get ⟨j, hj⟩ := by
    have hlb : j < (basesOf slots).length := by simp [basesOf]; omega
    have h2 : (basesOf slots).get? j = some ((slots.get ⟨j, hj'⟩).base) := by
      rw [List.get?_eq_get hlb]
      simp [basesOf, List.get_eq_getElem, List.getElem_map]
    have h3 : timeSlots.get? j = some (timeSlots.get ⟨j, hj⟩) := List.get?_eq_get hj
    rw [hB, h3] at h2
    exact (Option.some.injEq _ _ ▸ h2).symm ▸ rfl
  rw [hbase] at hSj
  omega

/-- Master invariant theorem for the allocator: every produced item is
well-shaped, per-window allocations fit the window, and the schedule
carries exactly one item per input task (by id, as a multiset). -/
theorem createOptimized_ok (tasks : List AnalyzedTask) (timeSlots : List TimeSlot)
    (stressLevel : Nat) (mood : String) :
    ItemsOK (createOptimizedScheduleFixed tasks timeSlots stressLevel mood) ∧
    (∀ j (hj : j < timeSlots.length),
      allocSum j (createOptimizedScheduleFixed tasks timeSlots stressLevel mood) ≤
        (timeSlots.get ⟨j, hj⟩).duration_minutes) ∧
    idsOf (createOptimizedScheduleFixed tasks timeSlots stressLevel mood) = tidsOf tasks := by
  by_cases hempty : tasks = [] ∨ timeSlots = []
  · rw [createOptimized_empty tasks timeSlots stressLevel mood hempty]
    refine ⟨?_, ?_, ?_⟩
    · intro it hmem
      obtain ⟨t, ht, he⟩ := List.mem_map.mp hmem
      rw [← he]
      exact itemOK_unavailable t
    · intro j hj
      have hzero : allocSum j (tasks.map unavailableItem) = 0 := by
        unfold allocSum
        rw [List.map_map]
        apply List.sum_eq_zero
        intro x hx
        obtain ⟨t, ht, he⟩ := List.mem_map.mp hx
        rw [← he]
        exact contrib_of_none j _ rfl
      rw [hzero]
      exact Nat.zero_le _
    · simp [idsOf, tidsOf, List.map_map]
      rfl
  · rw [createOptimized_eq tasks timeSlots stressLevel mood hempty]
    dsimp only
    obtain ⟨i1, s1, b1, id1⟩ := phase1Go_ok tasks []
      (timeSlots.map
        (fun slot => { base := slot, remaining_time := slot.duration_minutes, used := false }))
      [] itemsOK_nil (slotsOK_init timeSlots)
    obtain ⟨i2, s2, b2, id2⟩ := phase2_fold_ok
      ((tasks.map (fun t => t.base.estimated_duration)).sum)
      ((timeSlots.map (fun s => s.duration_minutes)).sum)
      ((phase1Go
        (timeSlots.map
          (fun slot => { base := slot, remaining_time := slot.duration_minutes, used := false }))
        [] tasks []).2.2)
      ((phase1Go
        (timeSlots.map
          (fun slot => { base := slot, remaining_time := slot.duration_minutes, used := false }))
        [] tasks []).1)
      ((phase1Go
        (timeSlots.map
          (fun slot => { base := slot, remaining_time := slot.duration_minutes, used := false }))
        [] tasks []).2.1)
      i1 s1
    obtain ⟨i3, s3, b3, id3⟩ := phase3_fold_ok_nil _ _ i2 s2
    refine ⟨i3, ?_, ?_⟩
    · exact slotsOK_to_conservation _ _ timeSlots s3
        ((b3.trans b2).trans (b1.trans (basesOf_init timeSlots)))
    · rw [id3]
      rw [id2, id1]
      simp [idsOf, tidsOf]

theorem tidsOf_insert (t : AnalyzedTask) (l : List AnalyzedTask) :
    tidsOf (insertByPriority t l) = {t.base.id} + tidsOf l := by
  induction l with
  | nil =>
    rw [show insertByPriority t [] = [t] from rfl, tidsOf_cons]
  | cons h rest ih =>
    rw [show insertByPriority t (h :: rest) =
        (if h.analysis.final_priority ≤ t.analysis.final_priority then t :: h :: rest
        else h :: insertByPriority t rest) from rfl]
    by_cases hc : h.analysis.final_priority ≤ t.analysis.final_priority
    · rw [if_pos hc, tidsOf_cons]
    · rw [if_neg hc, tidsOf_cons, ih, tidsOf_cons]
      ac_rfl

/-- The stable sort permutes the tasks: same id multiset. -/
theorem tidsOf_sort (l : List AnalyzedTask) :
    tidsOf (sortByPriorityDesc l) = tidsOf l := by
  induction l with
  | nil => rfl
  | cons t rest ih =>
    rw [show sortByPriorityDesc (t :: rest) = insertByPriority t (sortByPriorityDesc rest)
      from rfl]
    rw [tidsOf_insert, ih, tidsOf_cons]

theorem tidsOf_card (l : List AnalyzedTask) : (tidsOf l).card = l.length := by
  simp [tidsOf]

theorem sortByPriorityDesc_length (l : List AnalyzedTask) :
    (sortByPriorityDesc l).length = l.length := by
  rw [← tidsOf_card, tidsOf_sort, tidsOf_card]

/-- Analysis decoration keeps the task ids. -/
theorem tidsOf_map_analyze (now : Int) (stressLevel : Nat) (tasks : List Task) :
    tidsOf (tasks.map (analyzeTask now stressLevel)) = ↑(tasks.map (fun t => t.id)) := by
  simp only [tidsOf, List.map_map]
  rfl

/-- The schedule field of the result is the allocator's output on the
sorted analyzed tasks. -/
theorem processSchedule_schedule (tasks : List Task) (timeSlots : List TimeSlot)
    (stressLevel : Nat) (mood : String) (now : Int) :
    (processScheduleLocally tasks timeSlots stressLevel mood now).optimized_schedule =
      createOptimizedScheduleFixed (sortByPriorityDesc (tasks.map (analyzeTask now stressLevel)))
        timeSlots stressLevel mood := rfl

/-- C1: for every call to the scheduler and every time window, the sum of
`allocated_duration` over all schedule items whose `time_block` is that
window never exceeds that window's original `duration_minutes`. -/
theorem C1_conservation (tasks : List Task) (timeSlots : List TimeSlot) (stressLevel : Nat)
    (mood : String) (now : Int) (j : Nat) (hj : j < timeSlots.length) :
    allocSum j (processScheduleLocally tasks timeSlots stressLevel mood now).optimized_schedule ≤
      (timeSlots.get ⟨j, hj⟩).duration_minutes := by
  rw [processSchedule_schedule]
  exact (createOptimized_ok _ timeSlots stressLevel mood).2.1 j hj

/-- Witness for C1 at a concrete input. -/
theorem C1_conservation_witness :
    0 < ([sampleWindow 90] : List TimeSlot).length ∧
    allocSum 0 (processScheduleLocally [sampleTask 0 30 "medium" none] [sampleWindow 90]
        5 "focused" 0).optimized_schedule ≤
      (([sampleWindow 90] : List TimeSlot).get ⟨0, by decide⟩).duration_minutes :=
  ⟨by decide,
    C1_conservation [sampleTask 0 30 "medium" none] [sampleWindow 90] 5 "focused" 0 0
      (by decide)⟩

/-- C2 counterexample: with a low-priority task first and a high-priority
task second, the returned items are in allocation order `[1, 0]`, not the
input order `[0, 1]` — the claim that items appear in input order is
false. -/
theorem C2_counterexample :
    (processScheduleLocally [sampleTask 0 30 "low" none, sampleTask 1 30 "high" none]
        [sampleWindow 90] 5 "focused" 0).optimized_schedule.map
      (fun it => it.task.base.id) = [1, 0] ∧
    [sampleTask 0 30 "low" none, sampleTask 1 30 "high" none].map (fun t => t.id) = [0, 1] ∧
    ¬((processScheduleLocally [sampleTask 0 30 "low" none, sampleTask 1 30 "high" none]
        [sampleWindow 90] 5 "focused" 0).optimized_schedule.map
      (fun it => it.task.base.id) =
      [sampleTask 0 30 "low" none, sampleTask 1 30 "high" none].map (fun t => t.id)) := by
  with_unfolding_all decide

/-- C2 amended: the schedule contains exactly one item per input task (the
multiset of task ids in the output equals that of the input), though not
in input order. -/
theorem C2_one_item_per_task (tasks : List Task) (timeSlots : List TimeSlot)
    (stressLevel : Nat) (mood : String) (now : Int) :
    idsOf (processScheduleLocally tasks timeSlots stressLevel mood now).optimized_schedule =
      ↑(tasks.map (fun t => t.id)) := by
  rw [processSchedule_schedule]
  rw [(createOptimized_ok _ _ _ _).2.2]
  rw [tidsOf_sort]
  exact tidsOf_map_analyze now stressLevel tasks

/-- C3 counterexample: a `scaled` item with `allocated_duration` equal to
(not strictly below) the task's estimated duration, refuting
`status ∈ {partial, scaled} → 0 < allocated < estimated`. -/
theorem C3_counterexample :
    ∃ it ∈ (processScheduleLocally
        [sampleTask 0 60 "medium" none, sampleTask 1 40 "medium" none,
          sampleTask 2 50 "medium" none, sampleTask 3 10 "medium" none]
        [sampleWindow 60, sampleWindow 50, sampleWindow 40] 5 "focused" 0).optimized_schedule,
      it.completion_status = "scaled" ∧
      ¬(0 < it.allocated_duration ∧
        it.allocated_duration < it.task.base.estimated_duration) := by
  with_unfolding_all decide

/-- C3 amended: `partial` items satisfy `0 < allocated < estimated`, while
`scaled` items satisfy `allocated = estimated` (full allocation under a
global capacity shortfall). -/
theorem C3_partial_scaled (tasks : List Task) (timeSlots : List TimeSlot) (stressLevel : Nat)
    (mood : String) (now : Int) (it : ScheduleItem)
    (hmem : it ∈ (processScheduleLocally tasks timeSlots stressLevel mood now).optimized_schedule) :
    (it.completion_status = "partial" →
      0 < it.allocated_duration ∧ it.allocated_duration < it.task.base.estimated_duration) ∧
    (it.completion_status = "scaled" →
      it.allocated_duration = it.task.base.estimated_duration) := by
  rw [processSchedule_schedule] at hmem
  obtain ⟨-, -, hp, hs⟩ := (createOptimized_ok _ _ _ _).1 it hmem
  exact ⟨hp, hs⟩

/-- Witness for C3 amended at a concrete input. -/
theorem C3_partial_scaled_witness :
    ∃ hlen : 0 < (processScheduleLocally [sampleTask 0 30 "medium" none] [sampleWindow 90]
        5 "focused" 0).optimized_schedule.length,
      (((processScheduleLocally [sampleTask 0 30 "medium" none] [sampleWindow 90]
        5 "focused" 0).optimized_schedule.get ⟨0, hlen⟩).completion_status = "partial" →
        0 < ((processScheduleLocally [sampleTask 0 30 "medium" none] [sampleWindow 90]
          5 "focused" 0).optimized_schedule.get ⟨0, hlen⟩).allocated_duration ∧
        ((processScheduleLocally [sampleTask 0 30 "medium" none] [sampleWindow 90]
          5 "focused" 0).optimized_schedule.get ⟨0, hlen⟩).allocated_duration <
          ((processScheduleLocally [sampleTask 0 30 "medium" none] [sampleWindow 90]
            5 "focused" 0).optimized_schedule.get ⟨0, hlen⟩).task.base.estimated_duration) ∧
      (((processScheduleLocally [sampleTask 0 30 "medium" none] [sampleWindow 90]
        5 "focused" 0).optimized_schedule.get ⟨0, hlen⟩).completion_status = "scaled" →
        ((processScheduleLocally [sampleTask 0 30 "medium" none] [sampleWindow 90]
          5 "focused" 0).optimized_schedule.get ⟨0, hlen⟩).allocated_duration =
          ((processScheduleLocally [sampleTask 0 30 "medium" none] [sampleWindow 90]
            5 "focused" 0).optimized_schedule.get ⟨0, hlen⟩).task.base.estimated_duration) := by
  refine ⟨by with_unfolding_all decide, ?_⟩
  exact C3_partial_scaled [sampleTask 0 30 "medium" none] [sampleWindow 90] 5 "focused" 0 _
    (List.get_mem _ _ _)

/-- C4: the strategy-1 loop splices the placed task out of the array it is
iterating with `forEach`, so the task directly following a placed one is never
considered in phase 1.  At this input both 30-minute tasks fit the
90-minute window perfectly, yet the second ends with phase-2 status and
confidence 0.8 instead of the claimed perfect fit with 0.9. -/
theorem C4_phase1_skip :
    (processScheduleLocally [sampleTask 0 30 "medium" none, sampleTask 1 30 "medium" none]
        [sampleWindow 90] 5 "focused" 0).optimized_schedule.map
      (fun it => (it.task.base.id, it.completion_status, it.scheduling_confidence, it.notes)) =
    [(0, "complete", 0.9, ["Perfect fit in 90-minute slot"]),
      (1, "complete", 0.8, ["Scheduled in available 30-minute slot"])] := by
  with_unfolding_all decide

/-- C5 counterexample: a one-task schedule whose only item has confidence
0.9, yet the reported average confidence is the constant 0.85, not the
mean of the items' confidences. -/
theorem C5_counterexample :
    (processScheduleLocally [sampleTask 0 30 "medium" none] [sampleWindow 90]
        5 "focused" 0).insights.scheduling_summary.average_scheduling_confidence = 0.85 ∧
    ((processScheduleLocally [sampleTask 0 30 "medium" none] [sampleWindow 90]
        5 "focused" 0).optimized_schedule.map (fun it => it.scheduling_confidence)).sum /
      ((processScheduleLocally [sampleTask 0 30 "medium" none] [sampleWindow 90]
        5 "focused" 0).optimized_schedule.length : ℚ) = 0.9 ∧
    ¬((processScheduleLocally [sampleTask 0 30 "medium" none] [sampleWindow 90]
        5 "focused" 0).insights.scheduling_summary.average_scheduling_confidence =
      ((processScheduleLocally [sampleTask 0 30 "medium" none] [sampleWindow 90]
        5 "focused" 0).optimized_schedule.map (fun it => it.scheduling_confidence)).sum /
        ((processScheduleLocally [sampleTask 0 30 "medium" none] [sampleWindow 90]
          5 "focused" 0).optimized_schedule.length : ℚ)) := by
  with_unfolding_all decide

/-- C5 amended: the reported average scheduling confidence is the constant
0.85 for every input, independent of the items' confidences. -/
theorem C5_constant_average (tasks : List Task) (timeSlots : List TimeSlot) (stressLevel : Nat)
    (mood : String) (now : Int) :
    (processScheduleLocally tasks timeSlots stressLevel mood
        now).insights.scheduling_summary.average_scheduling_confidence = 0.85 := rfl

/-- C6 counterexample: one task and zero windows produces a one-item
schedule (status `not_scheduled`), not a validation error with no
schedule. -/
theorem C6_counterexample :
    (processScheduleLocally [sampleTask 0 60 "high" (some (JSDate.valid 7200000))] []
        5 "focused" 0).optimized_schedule.map
      (fun it => (it.completion_status, it.allocated_duration, it.notes)) =
    [("not_scheduled", 0, ["No time slots available"])] := by
  with_unfolding_all decide

/-- C6 amended: with an empty task list or an empty window list the engine
returns early, producing one `not_scheduled` item per task (confidence
0.0, zero minutes, note "No time slots available") instead of a
validation error. -/
theorem C6_early_return (tasks : List Task) (timeSlots : List TimeSlot) (stressLevel : Nat)
    (mood : String) (now : Int) (h : tasks = [] ∨ timeSlots = []) :
    (processScheduleLocally tasks timeSlots stressLevel mood
        now).optimized_schedule.length = tasks.length ∧
    ∀ it ∈ (processScheduleLocally tasks timeSlots stressLevel mood now).optimized_schedule,
      it.completion_status = "not_scheduled" ∧ it.allocated_duration = 0 ∧
      it.scheduling_confidence = 0 ∧ it.notes = ["No time slots available"] := by
  rw [processSchedule_schedule]
  have hempty : sortByPriorityDesc (tasks.map (analyzeTask now stressLevel)) = [] ∨
      timeSlots = [] := by
    rcases h with h | h
    · left; rw [h]; rfl
    · right; exact h
  rw [createOptimized_empty _ _ _ _ hempty]
  constructor
  · rw [List.length_map, sortByPriorityDesc_length, List.length_map]
  · intro it hmem
    obtain ⟨t, -, he⟩ := List.mem_map.mp hmem
    rw [← he]
    exact ⟨rfl, rfl, by norm_num [unavailableItem], rfl⟩

/-- Witness for C6 amended: one task, zero windows. -/
theorem C6_early_return_witness :
    (([] : List TimeSlot) = []) ∧
    ((processScheduleLocally [sampleTask 0 60 "high" none] [] 5 "focused"
        0).optimized_schedule.length = 1 ∧
    ∀ it ∈ (processScheduleLocally [sampleTask 0 60 "high" none] [] 5 "focused"
        0).optimized_schedule,
      it.completion_status = "not_scheduled" ∧ it.allocated_duration = 0 ∧
      it.scheduling_confidence = 0 ∧ it.notes = ["No time slots available"]) :=
  ⟨rfl, C6_early_return [sampleTask 0 60 "high" none] [] 5 "focused" 0 (Or.inr rfl)⟩

/-- C7: in phase 3, a still-unscheduled item whose task priority is high
or whose deadline urgency exceeds 0.8 is, when some unused window with at
least 10 remaining minutes exists at its turn, re-allocated
`min(task duration, window remaining)` minutes in the first such window,
with confidence 0.5 and status `partial` when the allocation falls short
of the requested duration, else `scaled`. -/
theorem C7_emergency_rescue (done : List ScheduleItem) (slots : List Slot) (item : ScheduleItem)
    (hns : item.completion_status = "not_scheduled")
    (hq : item.task.base.priority = "high" ∨ (0.8 : ℚ) < item.deadline_urgency)
    (hex : ∃ j, ∃ hj : j < slots.length,
      (slots.get ⟨j, hj⟩).used = false ∧ 10 ≤ (slots.get ⟨j, hj⟩).remaining_time) :
    ∃ si s, firstRescue slots = some (si, s) ∧
      (∃ hsi : si < slots.length, slots.get ⟨si, hsi⟩ = s) ∧
      s.used = false ∧ 10 ≤ s.remaining_time ∧
      (rescueStep (done, slots) item).1 = done ++ [rescuedItem item si s] ∧
      (rescuedItem item si s).allocated_duration =
        min item.task.base.estimated_duration s.remaining_time ∧
      (rescuedItem item si s).scheduling_confidence = 0.5 ∧
      (rescuedItem item si s).completion_status =
        (if min item.task.base.estimated_duration s.remaining_time <
            item.task.base.estimated_duration then "partial" else "scaled") := by
  obtain ⟨si, s, hfr⟩ := firstRescueFrom_complete slots 0 hex
  have hfr2 : firstRescue slots = some (si, s) := hfr
  obtain ⟨hsi, hget, hused, h10⟩ := firstRescue_qual slots si s hfr2
  refine ⟨si, s, hfr2, ⟨hsi, hget⟩, hused, h10, ?_, rfl, rfl, rfl⟩
  unfold rescueStep
  dsimp only
  rw [if_pos ⟨hns, hq⟩, hfr2]

/-- Witness for C7 at a concrete input. -/
theorem C7_emergency_rescue_witness :
    ((noSlotItem (analyzeTask 0 5 (sampleTask 0 60 "high" none))).completion_status =
        "not_scheduled" ∧
      ((noSlotItem (analyzeTask 0 5 (sampleTask 0 60 "high" none))).task.base.priority = "high" ∨
        (0.8 : ℚ) <
          (noSlotItem (analyzeTask 0 5 (sampleTask 0 60 "high" none))).deadline_urgency) ∧
      (∃ j, ∃ hj : j < ([⟨sampleWindow 20, 12, false⟩] : List Slot).length,
        (([⟨sampleWindow 20, 12, false⟩] : List Slot).get ⟨j, hj⟩).used = false ∧
        10 ≤ (([⟨sampleWindow 20, 12, false⟩] : List Slot).get ⟨j, hj⟩).remaining_time)) ∧
    (∃ si s, firstRescue [⟨sampleWindow 20, 12, false⟩] = some (si, s) ∧
      (∃ hsi : si < ([⟨sampleWindow 20, 12, false⟩] : List Slot).length,
        ([⟨sampleWindow 20, 12, false⟩] : List Slot).get ⟨si, hsi⟩ = s) ∧
      s.used = false ∧ 10 ≤ s.remaining_time ∧
      (rescueStep ([], [⟨sampleWindow 20, 12, false⟩])
          (noSlotItem (analyzeTask 0 5 (sampleTask 0 60 "high" none)))).1 =
        [] ++ [rescuedItem (noSlotItem (analyzeTask 0 5 (sampleTask 0 60 "high" none))) si s] ∧
      (rescuedItem (noSlotItem (analyzeTask 0 5 (sampleTask 0 60 "high" none)))
          si s).allocated_duration =
        min (noSlotItem
          (analyzeTask 0 5 (sampleTask 0 60 "high" none))).task.base.estimated_duration
          s.remaining_time ∧
      (rescuedItem (noSlotItem (analyzeTask 0 5 (sampleTask 0 60 "high" none)))
          si s).scheduling_confidence = 0.5 ∧
      (rescuedItem (noSlotItem (analyzeTask 0 5 (sampleTask 0 60 "high" none)))
          si s).completion_status =
        (if min (noSlotItem
              (analyzeTask 0 5 (sampleTask 0 60 "high" none))).task.base.estimated_duration
              s.remaining_time <
            (noSlotItem
              (analyzeTask 0 5 (sampleTask 0 60 "high" none))).task.base.estimated_duration
          then "partial" else "scaled")) :=
  ⟨⟨rfl, Or.inl rfl, ⟨0, by decide, rfl, by decide⟩⟩,
    C7_emergency_rescue [] [⟨sampleWindow 20, 12, false⟩]
      (noSlotItem (analyzeTask 0 5 (sampleTask 0 60 "high" none))) rfl (Or.inl rfl)
      ⟨0, by decide, rfl, by decide⟩⟩

/-- C8: an unparseable deadline yields urgency 0.3, not the claimed 0.2:
`new Date` produces an Invalid Date instead of throwing, `hoursUntil` is
NaN, every threshold comparison is false, and control reaches the final
`return 0.3`, leaving the `catch` branch (the intended 0.2) dead. -/
theorem C8_invalid_deadline (now : Int) :
    calculateDeadlineUrgency now
      { id := 0, title := "t", priority := "high", estimated_duration := 60
        deadline := some JSDate.invalid } = 0.3 := rfl

/-- Witness for C8 at a concrete clock value. -/
theorem C8_invalid_deadline_witness :
    calculateDeadlineUrgency 0
      { id := 0, title := "t", priority := "high", estimated_duration := 60
        deadline := some JSDate.invalid } = 0.3 :=
  C8_invalid_deadline 0

/-- C9 counterexample: two calls with identical tasks, windows, stress and
mood but different wall-clock times return different results (deadline
urgency and the generated-at stamp depend on the clock). -/
theorem C9_counterexample :
    processScheduleLocally [sampleTask 0 30 "medium" (some (JSDate.valid 36000000))]
        [sampleWindow 90] 5 "focused" 0 ≠
      processScheduleLocally [sampleTask 0 30 "medium" (some (JSDate.valid 36000000))]
        [sampleWindow 90] 5 "focused" 18000000 := by
  intro h
  have hc := congrArg
    (fun r => r.optimized_schedule.map (fun it => it.deadline_urgency)) h
  have ha : (processScheduleLocally [sampleTask 0 30 "medium" (some (JSDate.valid 36000000))]
      [sampleWindow 90] 5 "focused" 0).optimized_schedule.map
      (fun it => it.deadline_urgency) = [0.9] := by
    with_unfolding_all decide
  have hb : (processScheduleLocally [sampleTask 0 30 "medium" (some (JSDate.valid 36000000))]
      [sampleWindow 90] 5 "focused" 18000000).optimized_schedule.map
      (fun it => it.deadline_urgency) = [1.0] := by
    with_unfolding_all decide
  have hd : ¬([(0.9 : ℚ)] = [1.0]) := by
    with_unfolding_all decide
  dsimp only at hc
  rw [ha, hb] at hc
  exact hd hc

/-- C9 amended: the scheduler is a pure function of its inputs plus the
wall-clock time read at the start of the call: two calls with identical
tasks, windows, stress level, mood and clock reading return identical
results. -/
theorem C9_deterministic (t1 t2 : List Task) (w1 w2 : List TimeSlot) (s1 s2 : Nat)
    (m1 m2 : String) (n1 n2 : Int) (ht : t1 = t2) (hw : w1 = w2) (hs : s1 = s2)
    (hm : m1 = m2) (hn : n1 = n2) :
    processScheduleLocally t1 w1 s1 m1 n1 = processScheduleLocally t2 w2 s2 m2 n2 := by
  subst ht hw hs hm hn
  rfl

/-- Witness for C9 amended at a concrete input. -/
theorem C9_deterministic_witness :
    processScheduleLocally [sampleTask 0 30 "medium" none] [sampleWindow 90] 5 "focused" 0 =
      processScheduleLocally [sampleTask 0 30 "medium" none] [sampleWindow 90] 5 "focused" 0 :=
  C9_deterministic _ _ _ _ _ _ _ _ _ _ rfl rfl rfl rfl rfl

/-- C10: every returned item's scheduling confidence lies in the
five-element set {0.0, 0.5, 0.6, 0.8, 0.9}; each phase assigns one of
these fixed constants. -/
theorem C10_confidence_values (tasks : List Task) (timeSlots : List TimeSlot)
    (stressLevel : Nat) (mood : String) (now : Int) (it : ScheduleItem)
    (hmem : it ∈ (processScheduleLocally tasks timeSlots stressLevel mood now).optimized_schedule) :
    it.scheduling_confidence = 0 ∨ it.scheduling_confidence = 0.5 ∨
      it.scheduling_confidence = 0.6 ∨ it.scheduling_confidence = 0.8 ∨
      it.scheduling_confidence = 0.9 := by
  rw [processSchedule_schedule] at hmem
  exact ((createOptimized_ok _ _ _ _).1 it hmem).1

/-- Witness for C10 at a concrete input. -/
theorem C10_confidence_values_witness :
    ∃ hlen : 0 < (processScheduleLocally [sampleTask 0 30 "medium" none] [sampleWindow 90]
        5 "focused" 0).optimized_schedule.length,
      (((processScheduleLocally [sampleTask 0 30 "medium" none] [sampleWindow 90]
          5 "focused" 0).optimized_schedule.get ⟨0, hlen⟩).scheduling_confidence = 0 ∨
        ((processScheduleLocally [sampleTask 0 30 "medium" none] [sampleWindow 90]
          5 "focused" 0).optimized_schedule.get ⟨0, hlen⟩).scheduling_confidence = 0.5 ∨
        ((processScheduleLocally [sampleTask 0 30 "medium" none] [sampleWindow 90]
          5 "focused" 0).optimized_schedule.get ⟨0, hlen⟩).scheduling_confidence = 0.6 ∨
        ((processScheduleLocally [sampleTask 0 30 "medium" none] [sampleWindow 90]
          5 "focused" 0).optimized_schedule.get ⟨0, hlen⟩).scheduling_confidence = 0.8 ∨
        ((processScheduleLocally [sampleTask 0 30 "medium" none] [sampleWindow 90]
          5 "focused" 0).optimized_schedule.get ⟨0, hlen⟩).scheduling_confidence = 0.9) := by
  refine ⟨by with_unfolding_all decide, ?_⟩
  exact C10_confidence_values [sampleTask 0 30 "medium" none] [sampleWindow 90] 5 "focused" 0 _
    (List.get_mem _ _ _)

end Sched
